import Mathlib

/-!
Shallow embedding of the kinetics data-reduction pipeline in
`triplicate_aa_plot.py`: the record parser `read_data`, the concentration
converter `Reaction.calc_conc`, the aggregation step of `plot_multiple_fit`,
and the r-squared computation of `fit`.  Real numbers of the script are
modelled as rationals (the script's arithmetic on them is field arithmetic);
Python runtime exceptions are modelled explicitly.
-/

/-- Python runtime errors that the script can raise on the modelled paths:
`indexError` for a subscript on a too-short sequence (`entries[0]`,
`entries[1]`, `cpm_array[0]`), `valueError` for a failed `float()` conversion
and for the numpy `reshape`/`asarray` shape failure in `plot_multiple_fit`,
`nameError` for reading the local variables `time_array`/`cpm_array` before
any `conc` line has bound them. -/
inductive PyError where
  | indexError : PyError
  | valueError : PyError
  | nameError : PyError
deriving DecidableEq, Repr

/-- The `Reaction` class of `triplicate_aa_plot.py`.  Field order and names
follow `Reaction.__init__`: `time_array`, `cpm_array`, `sa` (specific
activity), `pars` (fitted parameters, initially `0`, modelled as the pair it
later becomes), `r2`, `normalized_cpm_array`, `aa_conc`, `conc_array`. -/
structure Reaction where
  time_array : List ℚ
  cpm_array : List ℚ
  sa : ℚ
  pars : ℚ × ℚ
  r2 : ℚ
  normalized_cpm_array : List ℚ
  aa_conc : ℚ
  conc_array : List ℚ
deriving DecidableEq, Repr

/-- `Reaction.__init__(self, time_array, cpm_array, sa, aa_conc)`:
`pars = 0`, `r2 = 0`, `normalized_cpm_array = []`, `conc_array = []`. -/
def Reaction.init (time_array cpm_array : List ℚ) (sa aa_conc : ℚ) : Reaction :=
  ⟨time_array, cpm_array, sa, (0, 0), 0, [], aa_conc, []⟩

/-- `Reaction.calc_conc`: reads `cpm_array[0]` (an `IndexError` on an empty
array), subtracts it elementwise into `normalized_cpm_array`, and sets
`conc_array = normalized_cpm_array / sa * aa_conc` elementwise. -/
def Reaction.calc_conc (r : Reaction) : Except PyError Reaction :=
  match r.cpm_array with
  | [] => .error .indexError
  | cpm0 :: _ =>
    let normalized := r.cpm_array.map (fun x => x - cpm0)
    .ok { r with
          normalized_cpm_array := normalized,
          conc_array := normalized.map (fun x => x / r.sa * r.aa_conc) }

/-- Split a character list at every whitespace character. -/
def splitWsChars : List Char → List (List Char)
  | [] => [[]]
  | c :: cs =>
    if c.isWhitespace then [] :: splitWsChars cs
    else
      match splitWsChars cs with
      | t :: ts => (c :: t) :: ts
      | [] => [[c]]

/-- Python `str.split()` with no argument: split on runs of whitespace,
discarding empty pieces. -/
def pySplit (line : String) : List String :=
  ((splitWsChars line.toList).map String.mk).filter (fun t => t ≠ "")

/-- Helper for `pyFloat`: the natural number denoted by a digit string. -/
def digitsVal (cs : List Char) : ℚ :=
  cs.foldl (fun a c => 10 * a + (c.toNat - 48 : ℕ)) 0

/-- Python `float()` restricted to plain decimal literals, the only numeric
form the script's input grammar uses: an optional sign, an integer part, an
optional point and fraction part, at least one digit overall.  Any other
string yields `none`, modelling the `ValueError` that `float()` raises. -/
def pyFloat (s : String) : Option ℚ :=
  let cs := s.toList
  let sign : ℚ := if cs.head? = some '-' then -1 else 1
  let body := match cs with
    | '-' :: r => r
    | '+' :: r => r
    | r => r
  let intPart := body.takeWhile Char.isDigit
  let rest := body.dropWhile Char.isDigit
  match rest with
  | [] =>
    if intPart.isEmpty then none
    else some (sign * digitsVal intPart)
  | '.' :: fracPart =>
    if fracPart.all Char.isDigit ∧ ¬(intPart.isEmpty ∧ fracPart.isEmpty) then
      some (sign * (digitsVal intPart + digitsVal fracPart / 10 ^ fracPart.length))
    else none
  | _ => none

/-- The loop state of `read_data`: `aa_conc` (initialised to `0` before the
loop), the local variables `time_array`/`cpm_array` (unbound before the first
`conc` line, modelled as `none`; reading them unbound is a `NameError`), and
the accumulated `rxns` list. -/
structure ParserState where
  aa_conc : ℚ
  buffers : Option (List ℚ × List ℚ)
  rxns : List Reaction
deriving DecidableEq, Repr

/-- The state of `read_data` before its loop. -/
def initState : ParserState :=
  ⟨0, none, []⟩

/-- One iteration of the `read_data` loop, on the token list
`entries = line.split()`.  `entries[0]`/`entries[1]` on a line of fewer than
two tokens is an `IndexError`; a `conc` line rebinds the buffers to empty
lists and sets `aa_conc`; an `sa` line reads the buffers (a `NameError` if no
`conc` line has bound them yet) and appends a new `Reaction`; any other line
reads the buffers and appends `(float(time), float(cpm))` to them. -/
def pyStep (st : ParserState) (entries : List String) : Except PyError ParserState :=
  match entries with
  | [] => .error .indexError
  | [_] => .error .indexError
  | time :: cpm :: _ =>
    if time = "conc" then
      match pyFloat cpm with
      | none => .error .valueError
      | some q => .ok { st with buffers := some ([], []), aa_conc := q }
    else if time = "sa" then
      match st.buffers with
      | none => .error .nameError
      | some (ts, cs) =>
        match pyFloat cpm with
        | none => .error .valueError
        | some q =>
          .ok { st with rxns := st.rxns ++ [Reaction.init ts cs q st.aa_conc] }
    else
      match st.buffers with
      | none => .error .nameError
      | some (ts, cs) =>
        match pyFloat time, pyFloat cpm with
        | some t, some c => .ok { st with buffers := some (ts ++ [t], cs ++ [c]) }
        | _, _ => .error .valueError

/-- The `read_data` loop over a list of input lines: `pyStep` on each line's
token split, propagating the first raised error. -/
def runLines (lines : List String) (st : ParserState) : Except PyError ParserState :=
  match lines with
  | [] => .ok st
  | l :: ls =>
    match pyStep st (pySplit l) with
    | .error e => .error e
    | .ok st' => runLines ls st'

/-- `read_data`: run the loop from the initial state and return `rxns`. -/
def read_data (lines : List String) : Except PyError (List Reaction) :=
  (runLines lines initState).map ParserState.rxns

/-- `np.average(m, axis=0)` at column `i` of the row-list `m`. -/
def npAverageCol (rows : List (List ℚ)) (i : ℕ) : ℚ :=
  (rows.map (fun row => row.getD i 0)).sum / rows.length

/-- The square of `np.std(m, axis=0)` at column `i` of the row-list `m`:
the population variance (numpy's default `ddof=0`), i.e. the mean over the
rows of the squared deviation from the column mean.  `np.std` itself is the
square root of this; the square root of a rational being irrational in
general, the development works with the square, and `std = 0` exactly when
this is `0`. -/
def npVarCol (rows : List (List ℚ)) (i : ℕ) : ℚ :=
  (rows.map (fun row => (row.getD i 0 - npAverageCol rows i) ^ 2)).sum / rows.length

/-- The aggregation step of `plot_multiple_fit` (its lines up to the
average/std computation, before plotting): read `rxns[0].time_array` (an
`IndexError` on an empty list), collect the `conc_array`s, and
`np.reshape` them to `[num_rxns, num_data_points]` — numpy raises a
`ValueError` (from `np.asarray` on a ragged list, or from `reshape` on a
size mismatch) exactly when some row's length differs from
`num_data_points`; otherwise the matrix is the row list itself, and the
result is the pair of `np.average(..., axis=0)` and the squared
`np.std(..., axis=0)` columns. -/
def aggStats (rxns : List Reaction) : Except PyError (List ℚ × List ℚ) :=
  match rxns with
  | [] => .error .indexError
  | r0 :: _ =>
    let num_data_points := r0.time_array.length
    let concat_conc_array := rxns.map Reaction.conc_array
    if concat_conc_array.all (fun row => row.length = num_data_points) then
      .ok ((List.range num_data_points).map (npAverageCol concat_conc_array),
           (List.range num_data_points).map (npVarCol concat_conc_array))
    else .error .valueError

/-- `fitfunc(x, p0, p1) = p0 * (1 - exp(-p1*x))`, with the exponential an
explicit parameter: `np.exp` is an external floating-point routine, so the
embedding takes the function it computes as an oracle. -/
def fitfunc (expf : ℚ → ℚ) (x p0 p1 : ℚ) : ℚ :=
  p0 * (1 - expf (-p1 * x))

/-- The square of the Pearson correlation coefficient of two sequences:
`r_value ** 2` for the `r_value` of `scipy.stats.linregress(f, c)`, namely
`cov(f,c)^2 / (var(f) * var(c))` — rational, unlike `r_value` itself. -/
def pearsonR2 (f c : List ℚ) : ℚ :=
  let n : ℚ := f.length
  let fm := f.sum / n
  let cm := c.sum / n
  let cov := ((f.zip c).map (fun p => (p.1 - fm) * (p.2 - cm))).sum
  let vf := (f.map (fun x => (x - fm) ^ 2)).sum
  let vc := (c.map (fun x => (x - cm) ^ 2)).sum
  cov ^ 2 / (vf * vc)

/-- The standard coefficient of determination `1 - SS_res / SS_tot` of
observations `c` against fitted values `f` — the quantity the script does
NOT compute; defined only to be compared with `pearsonR2`. -/
def detR2 (f c : List ℚ) : ℚ :=
  let cm := c.sum / (c.length : ℚ)
  let ssres := ((c.zip f).map (fun p => (p.1 - p.2) ^ 2)).sum
  let sstot := (c.map (fun x => (x - cm) ^ 2)).sum
  1 - ssres / sstot

/-- The `fit` function: `scipy.optimize.curve_fit` is an external iterative
solver, taken as an oracle `solver` producing the parameter pair `pars`;
`fit` then computes `fitted_data = fitfunc(time_array, pars[0], pars[1])`
and returns `pars` together with `r_value ** 2` from
`linregress(fitted_data, conc_array)`. -/
def fit (solver : List ℚ → List ℚ → ℚ × ℚ) (expf : ℚ → ℚ)
    (conc_array time_array : List ℚ) : (ℚ × ℚ) × ℚ :=
  let pars := solver conc_array time_array
  let fitted_data := time_array.map (fun x => fitfunc expf x pars.1 pars.2)
  (pars, pearsonR2 fitted_data conc_array)

deriving instance DecidableEq for Except

/-- Splitting an input-line list for `runLines`: the loop over `a ++ b` is the
loop over `a` followed, if no error was raised, by the loop over `b`. -/
theorem runLines_append (a b : List String) (st : ParserState) :
    runLines (a ++ b) st =
      match runLines a st with
      | .error e => .error e
      | .ok st' => runLines b st' := by
  induction a generalizing st with
  | nil => rfl
  | cons l ls ih =>
    simp only [List.cons_append, runLines]
    cases pyStep st (pySplit l) with
    | error e => rfl
    | ok st' => exact ih st'

/-- C3: on the five-line input `conc 10.0` / `0.0 100.0` / `5.0 150.0` /
`10.0 180.0` / `sa 50.0`, `read_data` returns exactly one `Reaction`, with
`time_array = [0, 5, 10]`, `cpm_array = [100, 150, 180]`, `sa = 50` and
`aa_conc = 10`. -/
theorem read_data_five_line_example :
    read_data ["conc 10.0", "0.0 100.0", "5.0 150.0", "10.0 180.0", "sa 50.0"] =
      .ok [Reaction.init [0, 5, 10] [100, 150, 180] 50 10] := by
  with_unfolding_all decide

/-- C5, counterexample: an `sa` line with no preceding data line does NOT
always make the parser fail — after a `conc` line has bound the (empty)
buffers, `sa 50.0` succeeds and produces a `Reaction` with empty
`time_array` and `cpm_array`. -/
theorem sa_without_data_produces_replicate :
    read_data ["conc 10.0", "sa 50.0"] = .ok [Reaction.init [] [] 50 10] := by
  with_unfolding_all decide

/-- C2: the `r2` that `fit` reports is the squared Pearson correlation
coefficient between the fitted values `fitfunc(t, pars)` and the observed
concentrations — whatever parameters the external solver returns — and that
quantity is not the coefficient of determination `1 - SS_res/SS_tot`: the
two disagree already on fitted values `[0, 1]` against observations
`[0, 2]`, where the Pearson square is `1` and the determination coefficient
is `1/2`. -/
theorem fit_r2_pearson_not_determination :
    (∀ (solver : List ℚ → List ℚ → ℚ × ℚ) (expf : ℚ → ℚ)
      (conc_array time_array : List ℚ),
      (fit solver expf conc_array time_array).2 =
        pearsonR2
          (time_array.map (fun x =>
            fitfunc expf x (solver conc_array time_array).1
              (solver conc_array time_array).2))
          conc_array) ∧
    pearsonR2 [0, 1] [0, 2] ≠ detR2 [0, 1] [0, 2] := by
  constructor
  · intro solver expf conc_array time_array
    rfl
  · with_unfolding_all decide

/-- C10: `calc_conc` changes only `normalized_cpm_array` and `conc_array`;
when it returns, `time_array`, `cpm_array`, `sa`, `aa_conc`, `pars` and `r2`
are unchanged. -/
theorem calc_conc_frame (r r' : Reaction) (h : r.calc_conc = .ok r') :
    r'.time_array = r.time_array ∧ r'.cpm_array = r.cpm_array ∧
      r'.sa = r.sa ∧ r'.aa_conc = r.aa_conc ∧
      r'.pars = r.pars ∧ r'.r2 = r.r2 := by
  cases hcpm : r.cpm_array with
  | nil =>
    rw [Reaction.calc_conc, hcpm] at h
    exact absurd h (by simp)
  | cons c0 tl =>
    rw [Reaction.calc_conc, hcpm] at h
    simp only [Except.ok.injEq] at h
    subst h
    exact ⟨rfl, rfl, rfl, rfl, rfl, rfl⟩

/-- C10, witness: the frame property at a concrete converted `Reaction`. -/
theorem calc_conc_frame_witness :
    let r := Reaction.init [0, 5] [100, 150] 50 10
    let r' : Reaction := ⟨[0, 5], [100, 150], 50, (0, 0), 0, [0, 50], 10, [0, 10]⟩
    r'.time_array = r.time_array ∧ r'.cpm_array = r.cpm_array ∧
      r'.sa = r.sa ∧ r'.aa_conc = r.aa_conc ∧
      r'.pars = r.pars ∧ r'.r2 = r.r2 :=
  calc_conc_frame (Reaction.init [0, 5] [100, 150] 50 10)
    ⟨[0, 5], [100, 150], 50, (0, 0), 0, [0, 50], 10, [0, 10]⟩
    (by with_unfolding_all decide)

/-- `getD` with default `0` through a `map`, inside the list's bounds. -/
theorem getD_map_zero (l : List ℚ) (f : ℚ → ℚ) (i : ℕ) (h : i < l.length) :
    (l.map f).getD i 0 = f (l.getD i 0) := by
  rw [List.getD_eq_getElem?_getD, List.getElem?_map, List.getElem?_eq_getElem h,
    List.getD_eq_getElem?_getD, List.getElem?_eq_getElem h]
  rfl

/-- Reading every position of a list in order reproduces the list. -/
theorem map_getD_range (l : List ℚ) :
    (List.range l.length).map (fun i => l.getD i 0) = l := by
  apply List.ext_getElem
  · simp
  · intro i h1 h2
    simp [List.getD_eq_getElem?_getD, List.getElem?_eq_getElem h2]

/-- A `calc_conc` call that returns took the cons branch. -/
theorem calc_conc_ok_cons (r r' : Reaction) (hc : r.calc_conc = .ok r') :
    ∃ c0 tl, r.cpm_array = c0 :: tl := by
  cases hcc : r.cpm_array with
  | nil => simp [Reaction.calc_conc, hcc] at hc
  | cons a b => exact ⟨a, b, rfl⟩

/-- The value `calc_conc` returns on a non-empty `cpm_array`. -/
theorem calc_conc_eq (r : Reaction) (c0 : ℚ) (tl : List ℚ)
    (hcpm : r.cpm_array = c0 :: tl) :
    r.calc_conc = .ok { r with
      normalized_cpm_array := (c0 :: tl).map (fun x => x - c0),
      conc_array :=
        ((c0 :: tl).map (fun x => x - c0)).map (fun x => x / r.sa * r.aa_conc) } := by
  simp [Reaction.calc_conc, hcpm]

/-- C1: on any `Reaction` with a non-empty `cpm_array`, `calc_conc` returns,
`normalized_cpm_array[i] = cpm_array[i] - cpm_array[0]` at every index,
`conc_array[i] = normalized_cpm_array[i] / sa * aa_conc` at every index, and
in particular `conc_array[0] = 0`. -/
theorem calc_conc_values (r : Reaction) (h : r.cpm_array ≠ []) :
    ∃ r', r.calc_conc = .ok r' ∧
      r'.normalized_cpm_array.length = r.cpm_array.length ∧
      r'.conc_array.length = r.cpm_array.length ∧
      (∀ i, i < r.cpm_array.length →
        r'.normalized_cpm_array.getD i 0 =
          r.cpm_array.getD i 0 - r.cpm_array.getD 0 0 ∧
        r'.conc_array.getD i 0 =
          r'.normalized_cpm_array.getD i 0 / r.sa * r.aa_conc) ∧
      r'.conc_array.getD 0 0 = 0 := by
  obtain ⟨c0, tl, hcpm⟩ : ∃ c0 tl, r.cpm_array = c0 :: tl := by
    cases hcc : r.cpm_array with
    | nil => exact absurd hcc h
    | cons a b => exact ⟨a, b, rfl⟩
  refine ⟨_, calc_conc_eq r c0 tl hcpm, ?_, ?_, ?_, ?_⟩
  · simp [hcpm]
  · simp [hcpm]
  · intro i hi
    rw [hcpm] at hi
    constructor
    · rw [hcpm, getD_map_zero _ _ _ hi]
      rfl
    · rw [getD_map_zero _ _ _ (by simpa using hi)]
  · have h0 : (0 : ℕ) < ((c0 :: tl).map (fun x => x - c0)).length := by simp
    rw [getD_map_zero _ _ _ h0]
    simp

/-- C1, witness: the property at the concrete `Reaction` with
`cpm_array = [100, 150]`, `sa = 50`, `aa_conc = 10`. -/
theorem calc_conc_values_witness :
    ∃ r', (Reaction.init [0, 5] [100, 150] 50 10).calc_conc = .ok r' ∧
      r'.normalized_cpm_array.length =
        (Reaction.init [0, 5] [100, 150] 50 10).cpm_array.length ∧
      r'.conc_array.length =
        (Reaction.init [0, 5] [100, 150] 50 10).cpm_array.length ∧
      (∀ i, i < (Reaction.init [0, 5] [100, 150] 50 10).cpm_array.length →
        r'.normalized_cpm_array.getD i 0 =
          (Reaction.init [0, 5] [100, 150] 50 10).cpm_array.getD i 0 -
            (Reaction.init [0, 5] [100, 150] 50 10).cpm_array.getD 0 0 ∧
        r'.conc_array.getD i 0 =
          r'.normalized_cpm_array.getD i 0 /
            (Reaction.init [0, 5] [100, 150] 50 10).sa *
            (Reaction.init [0, 5] [100, 150] 50 10).aa_conc) ∧
      r'.conc_array.getD 0 0 = 0 :=
  calc_conc_values (Reaction.init [0, 5] [100, 150] 50 10) (by simp [Reaction.init])

/-- C7: if `calc_conc` returns, `cpm_array` is non-decreasing, and both
`sa` and `aa_conc` are strictly positive (the §3 validity invariant), then
the computed `conc_array` is non-decreasing. -/
theorem conc_array_monotone (r r' : Reaction) (hc : r.calc_conc = .ok r')
    (hmono : r.cpm_array.Pairwise (· ≤ ·))
    (hsa : 0 < r.sa) (haa : 0 < r.aa_conc) :
    r'.conc_array.Pairwise (· ≤ ·) := by
  obtain ⟨c0, tl, hcpm⟩ := calc_conc_ok_cons r r' hc
  rw [calc_conc_eq r c0 tl hcpm] at hc
  simp only [Except.ok.injEq] at hc
  subst hc
  have h1 : ((c0 :: tl).map (fun x => x - c0)).Pairwise (· ≤ ·) :=
    List.Pairwise.map _ (fun a b hab => sub_le_sub_right hab c0) (hcpm ▸ hmono)
  exact List.Pairwise.map _
    (fun a b hab =>
      mul_le_mul_of_nonneg_right (div_le_div_of_nonneg_right hab hsa.le) haa.le)
    h1

/-- C7, witness: monotone concentrations at the concrete converted
`Reaction` with `cpm_array = [1, 2, 3]`, `sa = 2`, `aa_conc = 4`. -/
theorem conc_array_monotone_witness :
    (⟨[0, 1, 2], [1, 2, 3], 2, (0, 0), 0, [0, 1, 2], 4, [0, 2, 4]⟩ :
      Reaction).conc_array.Pairwise (· ≤ ·) :=
  conc_array_monotone (Reaction.init [0, 1, 2] [1, 2, 3] 2 4)
    ⟨[0, 1, 2], [1, 2, 3], 2, (0, 0), 0, [0, 1, 2], 4, [0, 2, 4]⟩
    (by with_unfolding_all decide) (by with_unfolding_all decide)
    (by norm_num [Reaction.init]) (by norm_num [Reaction.init])

/-- Processing an `sa` line from a state whose buffers are bound: a new
`Reaction` is appended from the buffered arrays and the current `aa_conc`,
and the buffers themselves are left untouched. -/
theorem pyStep_sa (st : ParserState) (u : String) (rest : List String)
    (ts cs : List ℚ) (qu : ℚ)
    (hbuf : st.buffers = some (ts, cs)) (hu : pyFloat u = some qu) :
    pyStep st ("sa" :: u :: rest) =
      .ok { st with rxns := st.rxns ++ [Reaction.init ts cs qu st.aa_conc] } := by
  simp [pyStep, hbuf, hu]

/-- C4: the parser never resets its accumulation buffers on an `sa` line.
If some prefix of the input leaves the loop in a state whose buffers hold
`(ts, cs)`, then appending two consecutive `sa` lines produces two
`Reaction`s with identical `time_array = ts` and `cpm_array = cs`, the two
specific-activity values, and the same `aa_conc`. -/
theorem sa_sa_reuses_buffers (ls : List String) (l1 l2 u v : String)
    (r1 r2 : List String) (st : ParserState) (ts cs : List ℚ) (qu qv : ℚ)
    (hl1 : pySplit l1 = "sa" :: u :: r1) (hl2 : pySplit l2 = "sa" :: v :: r2)
    (hst : runLines ls initState = .ok st) (hbuf : st.buffers = some (ts, cs))
    (hu : pyFloat u = some qu) (hv : pyFloat v = some qv) :
    runLines (ls ++ [l1, l2]) initState =
      .ok { st with rxns := st.rxns ++
        [Reaction.init ts cs qu st.aa_conc, Reaction.init ts cs qv st.aa_conc] } := by
  rw [runLines_append, hst]
  simp only [runLines]
  rw [hl1, pyStep_sa st u r1 ts cs qu hbuf hu, hl2]
  dsimp only
  rw [pyStep_sa ⟨st.aa_conc, st.buffers, st.rxns ++ [Reaction.init ts cs qu st.aa_conc]⟩
    v r2 ts cs qv hbuf hv]
  simp

/-- C4, witness: after the complete block `conc 2.0` / `1.0 3.0` / the two
lines `sa 4.0` and `sa 5.0` both consume the same buffered point. -/
theorem sa_sa_reuses_buffers_witness :
    runLines (["conc 2.0", "1.0 3.0"] ++ ["sa 4.0", "sa 5.0"]) initState =
      .ok ⟨2, some ([1], [3]),
        [Reaction.init [1] [3] 4 2, Reaction.init [1] [3] 5 2]⟩ :=
  sa_sa_reuses_buffers ["conc 2.0", "1.0 3.0"] "sa 4.0" "sa 5.0" "4.0" "5.0"
    [] [] ⟨2, some ([1], [3]), []⟩ [1] [3] 4 5
    (by with_unfolding_all decide) (by with_unfolding_all decide)
    (by with_unfolding_all decide) rfl
    (by with_unfolding_all decide) (by with_unfolding_all decide)

/-- C5, amended: what an `sa` line with no preceding data line actually
does.  If no `conc` line has appeared (the buffers are unbound), the parser
fails — with a `NameError` on the unbound local `time_array`, not an
`EmptyReplicateError` (no such check exists).  If a `conc` line has appeared
but no data line since (the buffers are bound and empty), the parser does
not fail at all: it appends a `Reaction` with empty `time_array` and
`cpm_array`. -/
theorem sa_line_empty_buffer_behavior (ls : List String) (st : ParserState)
    (l u : String) (rest : List String)
    (hst : runLines ls initState = .ok st)
    (hl : pySplit l = "sa" :: u :: rest) :
    (st.buffers = none → runLines (ls ++ [l]) initState = .error .nameError) ∧
    (∀ qu : ℚ, st.buffers = some ([], []) → pyFloat u = some qu →
      runLines (ls ++ [l]) initState =
        .ok { st with rxns := st.rxns ++ [Reaction.init [] [] qu st.aa_conc] }) := by
  constructor
  · intro hbuf
    rw [runLines_append, hst]
    simp only [runLines]
    rw [hl]
    simp [pyStep, hbuf]
  · intro qu hbuf hu
    rw [runLines_append, hst]
    simp only [runLines]
    rw [hl, pyStep_sa st u rest [] [] qu hbuf hu]

/-- C5, witness for the amended claim: `sa 3.0` as the first line fails with
a `NameError`, while `conc 7.0` followed by `sa 3.0` succeeds and produces a
`Reaction` with empty arrays. -/
theorem sa_line_empty_buffer_behavior_witness :
    runLines ([] ++ ["sa 3.0"]) initState = .error .nameError ∧
    runLines (["conc 7.0"] ++ ["sa 3.0"]) initState =
      .ok ⟨7, some ([], []), [Reaction.init [] [] 3 7]⟩ :=
  ⟨(sa_line_empty_buffer_behavior [] initState "sa 3.0" "3.0" [] rfl
      (by with_unfolding_all decide)).1 rfl,
   (sa_line_empty_buffer_behavior ["conc 7.0"] ⟨7, some ([], []), []⟩
      "sa 3.0" "3.0" [] (by with_unfolding_all decide)
      (by with_unfolding_all decide)).2 3 rfl (by with_unfolding_all decide)⟩

/-- What `aggStats` is on any non-empty list, by unfolding the definition. -/
theorem aggStats_cons_eq (r0 : Reaction) (rest : List Reaction) :
    aggStats (r0 :: rest) =
      if ((r0 :: rest).map Reaction.conc_array).all
          (fun row => row.length = r0.time_array.length) then
        .ok ((List.range r0.time_array.length).map
              (npAverageCol ((r0 :: rest).map Reaction.conc_array)),
            (List.range r0.time_array.length).map
              (npVarCol ((r0 :: rest).map Reaction.conc_array)))
      else .error .valueError := rfl

/-- C6, counterexample: two converted replicates whose `times` have lengths
2 and 3 make the aggregation fail with the numpy `ValueError` raised inside
`np.reshape` on the ragged concentration list — not with a dedicated
shape-mismatch check run beforehand (no such check, and no
`ShapeMismatchError`, exists in the program). -/
theorem aggStats_mismatch_counterexample :
    aggStats [⟨[0, 5], [100, 150], 50, (0, 0), 0, [0, 50], 10, [0, 10]⟩,
        ⟨[0, 5, 7], [100, 150, 160], 50, (0, 0), 0, [0, 50, 60], 10,
          [0, 10, 12]⟩] =
      .error .valueError := by
  with_unfolding_all decide

/-- C6, amended: for every sequence of two or more converted replicates
(each with `conc_array` as long as its `time_array`) whose `time_array`
lengths are not all equal, the aggregation fails with the numpy
`ValueError` of the `np.reshape` call on the ragged concentration list;
the failure IS the downstream reshape error, there being no validation
step before it. -/
theorem aggStats_mismatched_lengths (rxns : List Reaction)
    (hconv : ∀ r ∈ rxns, r.conc_array.length = r.time_array.length)
    (hlen : 2 ≤ rxns.length)
    (hne : ∃ r1 ∈ rxns, ∃ r2 ∈ rxns,
      r1.time_array.length ≠ r2.time_array.length) :
    aggStats rxns = .error .valueError := by
  obtain ⟨r1, hr1, r2, hr2, hne12⟩ := hne
  cases hrx : rxns with
  | nil => rw [hrx] at hlen; exact absurd hlen (by decide)
  | cons r0 rest =>
    subst hrx
    have key : ∃ r ∈ r0 :: rest, r.time_array.length ≠ r0.time_array.length := by
      by_cases he : r1.time_array.length = r0.time_array.length
      · exact ⟨r2, hr2, fun h => hne12 (he.trans h.symm)⟩
      · exact ⟨r1, hr1, he⟩
    rw [aggStats_cons_eq, if_neg]
    intro hall
    rw [List.all_eq_true] at hall
    obtain ⟨r, hr, hner⟩ := key
    have hrow := hall r.conc_array (List.mem_map_of_mem Reaction.conc_array hr)
    rw [decide_eq_true_eq] at hrow
    exact hner ((hconv r hr).symm.trans hrow)

/-- C6, witness for the amended claim: the failure at a concrete sequence
of three converted replicates with 2, 3 and 2 time points. -/
theorem aggStats_mismatched_lengths_witness :
    aggStats [⟨[0, 5], [100, 150], 50, (0, 0), 0, [0, 50], 10, [0, 10]⟩,
        ⟨[0, 5, 7], [100, 151, 160], 50, (0, 0), 0, [0, 51, 60], 10,
          [0, 10.2, 12]⟩,
        ⟨[0, 5], [100, 152], 50, (0, 0), 0, [0, 52], 10, [0, 10.4]⟩] =
      .error .valueError :=
  aggStats_mismatched_lengths
    [⟨[0, 5], [100, 150], 50, (0, 0), 0, [0, 50], 10, [0, 10]⟩,
     ⟨[0, 5, 7], [100, 151, 160], 50, (0, 0), 0, [0, 51, 60], 10, [0, 10.2, 12]⟩,
     ⟨[0, 5], [100, 152], 50, (0, 0), 0, [0, 52], 10, [0, 10.4]⟩]
    (by with_unfolding_all decide) (by decide)
    (by with_unfolding_all decide)

/-- `aggStats` on a single replicate whose concentration series is as long
as its time series: the average row is the concentration series itself and
every squared standard deviation is `0`. -/
theorem aggStats_singleton (r : Reaction)
    (hlen : r.conc_array.length = r.time_array.length) :
    aggStats [r] = .ok (r.conc_array, List.replicate r.time_array.length 0) := by
  have step : aggStats [r] =
      if ([r].map Reaction.conc_array).all
          (fun row => row.length = r.time_array.length) then
        .ok ((List.range r.time_array.length).map
              (npAverageCol ([r].map Reaction.conc_array)),
            (List.range r.time_array.length).map
              (npVarCol ([r].map Reaction.conc_array)))
      else .error .valueError := rfl
  have havg : ∀ i, npAverageCol ([r].map Reaction.conc_array) i =
      r.conc_array.getD i 0 := by
    intro i
    simp [npAverageCol]
  have hvar : ∀ i, npVarCol ([r].map Reaction.conc_array) i = 0 := by
    intro i
    unfold npVarCol
    rw [havg i]
    simp
  rw [step, if_pos (by simp [hlen]),
    List.map_congr_left (fun i _ => havg i),
    List.map_congr_left (fun i _ => hvar i), ← hlen, map_getD_range]
  simp [List.map_const']

/-- C8: the aggregation uses the population standard deviation (`ddof=0`,
the numpy default), so on a single converted replicate the mean series is
exactly that replicate's `conc_array` and every (squared) standard
deviation is exactly `0`. -/
theorem aggStats_single_replicate (r r' : Reaction) (hc : r.calc_conc = .ok r')
    (hlen : r.cpm_array.length = r.time_array.length) :
    aggStats [r'] = .ok (r'.conc_array, List.replicate r'.time_array.length 0) := by
  obtain ⟨c0, tl, hcpm⟩ := calc_conc_ok_cons r r' hc
  rw [calc_conc_eq r c0 tl hcpm] at hc
  simp only [Except.ok.injEq] at hc
  subst hc
  apply aggStats_singleton
  simp only [List.length_map, ← hcpm]
  exact hlen

/-- C8, witness: the aggregation at the single concrete converted
`Reaction` with `cpm_array = [100, 150]`, `sa = 50`, `aa_conc = 10`. -/
theorem aggStats_single_replicate_witness :
    aggStats [⟨[0, 5], [100, 150], 50, (0, 0), 0, [0, 50], 10, [0, 10]⟩] =
      .ok ([0, 10], List.replicate 2 0) :=
  aggStats_single_replicate (Reaction.init [0, 5] [100, 150] 50 10)
    ⟨[0, 5], [100, 150], 50, (0, 0), 0, [0, 50], 10, [0, 10]⟩
    (by with_unfolding_all decide) rfl

/-- C9: a line with at least two whitespace-separated tokens whose first
token is neither `conc` nor `sa` is processed using only its first two
tokens: the parser's output on any input containing it is identical to its
output when the line is replaced by one splitting into exactly those two
tokens. -/
theorem data_line_extra_tokens_ignored (pre lines : List String)
    (l l' t0 t1 : String) (rest : List String)
    (hl : pySplit l = t0 :: t1 :: rest) (hl' : pySplit l' = [t0, t1])
    (h0 : t0 ≠ "conc") (h1 : t0 ≠ "sa") :
    runLines (pre ++ l :: lines) initState =
      runLines (pre ++ l' :: lines) initState := by
  rw [runLines_append, runLines_append]
  cases runLines pre initState with
  | error e => rfl
  | ok st =>
    simp only [runLines]
    rw [hl, hl']
    have hps : pyStep st (t0 :: t1 :: rest) = pyStep st [t0, t1] := rfl
    rw [hps]

/-- C9, witness: the line `2.0 3.0 9.9` parses identically to `2.0 3.0`. -/
theorem data_line_extra_tokens_ignored_witness :
    runLines (["conc 1.0"] ++ "2.0 3.0 9.9" :: []) initState =
      runLines (["conc 1.0"] ++ "2.0 3.0" :: []) initState :=
  data_line_extra_tokens_ignored ["conc 1.0"] [] "2.0 3.0 9.9" "2.0 3.0"
    "2.0" "3.0" ["9.9"] (by with_unfolding_all decide)
    (by with_unfolding_all decide) (by decide) (by decide)
